import Mathlib

/-!
Shallow embedding of the Assimp model-viewer program (single C++ translation
unit: shader setup, `load3DFile`, `init`, `nodeTreeTraversal`, `display`,
`reshape`, `keyboard`, `main`).

The imported data model (aiScene / aiNode / aiMesh / aiFace / aiVector3D) is
embedded as plain Lean structures; arrays become lists, pointers that may be
null become `Option` or a dedicated `null` constructor, and an out-of-bounds
array access becomes a `none` from the `List.get?`-style lookup.  GPU calls
(`glBufferData`, `glDrawElements`, `cout`) are modelled by the data they carry:
buffer contents and an event trace.
-/

/-- One `aiFace`: `mIndices` is the array of vertex indices of this face. -/
structure AiFace where
  mIndices : List Nat
deriving Repr, DecidableEq

/-- `aiFace::mNumIndices`. -/
def AiFace.mNumIndices (f : AiFace) : Nat := f.mIndices.length

/-- One `aiVector3D`: three float components. -/
structure AiVector3D where
  x : Float
  y : Float
  z : Float

/-- One `aiMesh`: a vertex-position array and a face array. -/
structure AiMesh where
  mVertices : List AiVector3D
  mFaces : List AiFace

/-- `aiMesh::mNumVertices`. -/
def AiMesh.mNumVertices (m : AiMesh) : Nat := m.mVertices.length

/-- `aiMesh::mNumFaces`. -/
def AiMesh.mNumFaces (m : AiMesh) : Nat := m.mFaces.length

/-- `aiMesh::HasPositions()`: the vertex array is non-null and non-empty. -/
def AiMesh.hasPositions (m : AiMesh) : Bool := 0 < m.mVertices.length

/-- `aiMesh::HasFaces()`: the face array is non-null and non-empty. -/
def AiMesh.hasFaces (m : AiMesh) : Bool := 0 < m.mFaces.length

/-- One `aiNode*`: either the null pointer, or a node carrying mesh indices
(`mMeshes`, indices into the scene's mesh array) and child pointers
(`mChildren`). -/
inductive AiNode where
  | null : AiNode
  | node : List Nat → List AiNode → AiNode
deriving Repr

/-- The `aiScene`: a flat mesh collection and the root of the node tree. -/
structure AiScene where
  mMeshes : List AiMesh
  mRootNode : AiNode

/-- `aiScene::mNumMeshes`. -/
def AiScene.mNumMeshes (s : AiScene) : Nat := s.mMeshes.length

/-! ## Buffer uploader (`init`, lines 194-257)

For each mesh the loop creates a VAO, an optional position VBO
(`if currentMesh->HasPositions()`) and an optional element buffer
(`if currentMesh->HasFaces()`).  We record, per mesh, the VAO handle and the
contents of the two buffers. -/

/-- The three floats of one vertex, in memory order. -/
def vecFloats (v : AiVector3D) : List Float := [v.x, v.y, v.z]

/-- Content of the `GL_ARRAY_BUFFER` created for a mesh:
`glBufferData(GL_ARRAY_BUFFER, sizeof(float) * 3 * mNumVertices, mVertices, ...)`
copies the first `3 * mNumVertices` floats of the flat `mVertices` array. -/
def uploadedVertexData (m : AiMesh) : List Float :=
  ((m.mVertices.map vecFloats).flatten).take (3 * m.mNumVertices)

/-- Allocation size of `faceArray`:
`malloc(sizeof(unsigned int) * mNumFaces * mFaces[0].mNumIndices)`.
The source reads `mFaces[0]` under the `HasFaces()` guard; outside that guard
the read is out of bounds and we default to 0. -/
def faceArrayAlloc (m : AiMesh) : Nat :=
  m.mNumFaces * (((m.mFaces[0]?).map AiFace.mNumIndices).getD 0)

/-- The inner copy loop `for k in 0..mNumIndices: faceArray[idx++] = mIndices[k]`:
sequential stores into `arr` starting at position `i`.  A store past the end of
the allocation (heap overflow in C) is modelled by `List.set`, which leaves the
list unchanged out of range. -/
def writeIndicesFrom (arr : List Nat) (i : Nat) : List Nat → List Nat
  | [] => arr
  | v :: vs => writeIndicesFrom (arr.set i v) (i + 1) vs

/-- The outer copy loop over `mFaces`, threading `faceArrayIndex`. -/
def writeFacesFrom (arr : List Nat) (i : Nat) : List AiFace → List Nat
  | [] => arr
  | f :: fs => writeFacesFrom (writeIndicesFrom arr i f.mIndices) (i + f.mNumIndices) fs

/-- `faceArray` after the copy loops: a freshly `malloc`ed block of
`faceArrayAlloc m` cells (contents arbitrary, modelled as 0) overwritten by the
two nested loops. -/
def builtFaceArray (m : AiMesh) : List Nat :=
  writeFacesFrom (List.replicate (faceArrayAlloc m) 0) 0 m.mFaces

/-- Content of the `GL_ELEMENT_ARRAY_BUFFER`:
`glBufferData(..., sizeof(unsigned int) * mNumFaces * mFaces[0].mNumIndices, faceArray, ...)`
uploads the first `faceArrayAlloc m` entries of `faceArray`. -/
def uploadedIndexData (m : AiMesh) : List Nat :=
  (builtFaceArray m).take (faceArrayAlloc m)

/-- What the `init` loop records for one mesh: the VAO handle stored in
`vaoArray[i]`, and the contents of the buffers bound into that VAO. -/
structure MeshUpload where
  vao : Nat
  positions : Option (List Float)
  indices : Option (List Nat)

/-- One iteration of the `init` mesh loop, with `h` the next fresh GL handle
(`glGenVertexArrays` / `glGenBuffers` each hand out one).  Returns the record
for this mesh and the next fresh handle. -/
def uploadMesh (m : AiMesh) (h : Nat) : MeshUpload × Nat :=
  let vao := h
  let h1 := h + 1
  let (pos, h2) :=
    if m.hasPositions then (some (uploadedVertexData m), h1 + 1) else (none, h1)
  let (idx, h3) :=
    if m.hasFaces then (some (uploadedIndexData m), h2 + 1) else (none, h2)
  (⟨vao, pos, idx⟩, h3)

/-- The whole `for (i = 0; i < scene->mNumMeshes; i++)` loop: builds the
handle table (`vaoArray` plus the per-VAO buffer contents) in mesh order. -/
def uploadLoop (meshes : List AiMesh) (h : Nat) : List MeshUpload × Nat :=
  match meshes with
  | [] => ([], h)
  | m :: ms =>
    let (u, h1) := uploadMesh m h
    let (rest, h2) := uploadLoop ms h1
    (u :: rest, h2)

/-! ## Traversal renderer (`nodeTreeTraversal`, lines 276-319)

The function reads the globals `scene` and `vaoArray` and issues GL calls; we
record the issued draw calls and console messages as an event trace.  Every
C array access becomes an optional lookup, so the whole traversal returns
`none` exactly when the source would read out of bounds. -/

/-- An observable effect of the renderer: a `cout` diagnostic, or one
`glDrawElements` call issued with the given VAO bound and the given element
count. -/
inductive GLEvent where
  | log : String → GLEvent
  | draw : Nat → Nat → GLEvent
deriving Repr, DecidableEq

/-- The two per-mesh array reads `vaoArray[meshIndex]` and
`scene->mMeshes[meshIndex]`. -/
def meshLookup (s : AiScene) (vaoArr : List MeshUpload) (i : Nat) :
    Option (MeshUpload × AiMesh) :=
  match vaoArr[i]?, s.mMeshes[i]? with
  | some u, some m => some (u, m)
  | _, _ => none

/-- The body of `for (i = 0; i < node->mNumMeshes; i++)`: bind
`vaoArray[meshIndex]`, read `mNumFaces` and `mFaces[0].mNumIndices` (the
source reads `mFaces[0]` unconditionally, so a zero-face mesh is an
out-of-bounds read, i.e. `none`), and issue one `glDrawElements` with element
count `numFaces * numIndicesPerFace`. -/
def drawNodeMeshes (s : AiScene) (vaoArr : List MeshUpload) :
    List Nat → Option (List GLEvent)
  | [] => some []
  | i :: is => do
    let (u, m) ← meshLookup s vaoArr i
    let f0 ← m.mFaces[0]?
    let rest ← drawNodeMeshes s vaoArr is
    pure (GLEvent.draw u.vao (m.mNumFaces * f0.mNumIndices) :: rest)

mutual

/-- `nodeTreeTraversal(const aiNode* node)`: null pointer prints a diagnostic
and returns; otherwise draw the node's meshes, then recurse into the children
in array order (depth-first). -/
def nodeTreeTraversal (s : AiScene) (vaoArr : List MeshUpload) :
    AiNode → Option (List GLEvent)
  | AiNode.null => some [GLEvent.log "nodeTreeTraversal(): Null node"]
  | AiNode.node meshes children => do
    let d ← drawNodeMeshes s vaoArr meshes
    let c ← traverseChildren s vaoArr children
    pure (d ++ c)

/-- The loop `for (j = 0; j < node->mNumChildren; j++) nodeTreeTraversal(mChildren[j])`. -/
def traverseChildren (s : AiScene) (vaoArr : List MeshUpload) :
    List AiNode → Option (List GLEvent)
  | [] => some []
  | c :: cs => do
    let e ← nodeTreeTraversal s vaoArr c
    let rest ← traverseChildren s vaoArr cs
    pure (e ++ rest)

end

/-! ## Loader (`load3DFile`, lines 93-126), program state, `display`,
`keyboard`, `main` -/

/-- Result of `load3DFile`: the returned bool, the lines printed to `cout`,
and the value left in the global `scene` pointer. -/
structure LoadResult where
  ok : Bool
  console : List String
  scene : Option AiScene

/-- `load3DFile(filename)`.  The environment is abstracted by whether the file
is readable (`ifstream::good`), and by what `importer.ReadFile` would return
for it (`none` = null scene, with `errString` the importer's diagnostic).
On the unreadable path the global `scene` is never assigned and stays null. -/
def load3DFile (filename : String) (fileReadable : Bool)
    (importResult : Option AiScene) (errString : String) : LoadResult :=
  if !fileReadable then
    { ok := false, console := ["Unable to open the 3D file."], scene := none }
  else
    match importResult with
    | none =>
      { ok := false
        console := ["Loading 3D file " ++ filename, errString]
        scene := none }
    | some s =>
      { ok := true
        console := ["Loading 3D file " ++ filename,
                    "3D file " ++ filename ++ " loaded."]
        scene := some s }

/-- The hard-coded model path. -/
def objectFileName : String := "Models\\dog3.dae"

/-- The program's global mutable state relevant to rendering: the `scene`
pointer, the `vaoArray` handle table (null until allocated, here paired with
the buffer contents), and the shader `program` handle. -/
structure ProgState where
  scene : Option AiScene
  vaoTable : Option (List MeshUpload)
  program : Nat

/-- `init()` after the shader setup (lines 182-257): load the file; on failure
return early leaving `scene` as the loader left it and `vaoArray` null; on
success allocate `vaoArray` with one slot per mesh and run the upload loop.
Returns the resulting global state and the console output.  GL handles are
handed out from 1. -/
def init (fileReadable : Bool) (importResult : Option AiScene)
    (errString : String) : ProgState × List String :=
  let r := load3DFile objectFileName fileReadable importResult errString
  match r.ok, r.scene with
  | true, some s =>
    ({ scene := some s
       vaoTable := some (uploadLoop s.mMeshes 1).1
       program := 1 }, r.console)
  | _, _ =>
    ({ scene := r.scene, vaoTable := none, program := 1 }, r.console)

/-- `display()`: clear, activate the shader, and `if (scene)` start the node
tree traversal at the root.  With a null scene no draw call is issued.  The
`none` result marks an out-of-bounds access inside the traversal. -/
def display (st : ProgState) : Option (List GLEvent) :=
  match st.scene with
  | none => some []
  | some s => nodeTreeTraversal s (st.vaoTable.getD []) s.mRootNode

/-- One trip through the event loop for a redraw event: `display` reads the
globals and issues GL calls but assigns none of them, so the state component
is returned unchanged. -/
def frameStep (st : ProgState) : ProgState × Option (List GLEvent) :=
  (st, display st)

/-- `n` consecutive redraws: the final state and the per-frame event traces in
order. -/
def renderFrames (st : ProgState) : Nat → ProgState × List (Option (List GLEvent))
  | 0 => (st, [])
  | n + 1 =>
    let (st1, e) := frameStep st
    let (st2, rest) := renderFrames st1 n
    (st2, e :: rest)

/-- The draw calls of one frame trace. -/
def drawCalls (events : List GLEvent) : List GLEvent :=
  events.filter fun e => match e with | GLEvent.draw _ _ => true | _ => false

/-- The externally visible outcome of `keyboard`. -/
inductive KeyEffect where
  | exitProcess : Nat → KeyEffect
  | redraw : KeyEffect
deriving Repr, DecidableEq

/-- `keyboard(key, x, y)`: key 033 (Escape) calls `exit(EXIT_SUCCESS)` and
never reaches `glutPostRedisplay`; every other key falls through the switch
and calls `glutPostRedisplay()`.  No global is assigned either way. -/
def keyboard (st : ProgState) (key : Nat) : ProgState × KeyEffect :=
  if key = 27 then (st, KeyEffect.exitProcess 0) else (st, KeyEffect.redraw)

/-! ## Auxiliary definitions for the stated properties -/

/-- Total number of face indices of a face list (what `faceArrayIndex` has
counted up to after the copy loops). -/
def totalIndices (fs : List AiFace) : Nat := (fs.map AiFace.mNumIndices).sum

/-- The sequence of positions `faceArrayIndex` takes in the copy loops,
starting from `i`: face by face, `mNumIndices` consecutive cells each. -/
def writeTraceFrom (i : Nat) : List AiFace → List Nat
  | [] => []
  | f :: fs => List.range' i f.mNumIndices ++ writeTraceFrom (i + f.mNumIndices) fs

/-- All positions the flattening loop stores to for mesh `m`. -/
def faceWriteTrace (m : AiMesh) : List Nat := writeTraceFrom 0 m.mFaces

/-- Every store of the flattening loop lands inside the `malloc`ed block. -/
def writesInBounds (m : AiMesh) : Bool :=
  (faceWriteTrace m).all fun p => p < faceArrayAlloc m

/-- The number of cells the flattening loop stores to equals the allocation
size `mNumFaces * mFaces[0].mNumIndices`. -/
def fillsExactly (m : AiMesh) : Bool :=
  (faceWriteTrace m).length = faceArrayAlloc m

mutual

/-- All mesh indices attached to nodes of a tree, in visit order. -/
def treeMeshIndices : AiNode → List Nat
  | AiNode.null => []
  | AiNode.node meshes children => meshes ++ childMeshIndices children

/-- Mesh indices of a child array, in order. -/
def childMeshIndices : List AiNode → List Nat
  | [] => []
  | c :: cs => treeMeshIndices c ++ childMeshIndices cs

end

/-- The VAO handle the spec says is bound for mesh index `i` (table entry
`i`), with a default for an out-of-range index. -/
def specVao (vaoArr : List MeshUpload) (i : Nat) : Nat :=
  ((vaoArr[i]?).map MeshUpload.vao).getD 0

/-- The element count the spec prescribes for mesh index `i`: face count
times the index count of the mesh's first face. -/
def specDrawCount (s : AiScene) (i : Nat) : Nat :=
  ((s.mMeshes[i]?).map fun m =>
    m.mNumFaces * (((m.mFaces[0]?).map AiFace.mNumIndices).getD 0)).getD 0

mutual

/-- Modelled from the spec (refinement target, not from the source): "for
each mesh index attached to the node, ... issue one indexed-triangle draw
call sized (face count x indices-per-face, taken from the mesh's first face).
Then recurse into each child node, depth-first, in child-array order.  Null
node: no-op with a diagnostic." -/
def specTraversal (s : AiScene) (vaoArr : List MeshUpload) : AiNode → List GLEvent
  | AiNode.null => [GLEvent.log "nodeTreeTraversal(): Null node"]
  | AiNode.node meshes children =>
    (meshes.map fun i => GLEvent.draw (specVao vaoArr i) (specDrawCount s i)) ++
      specChildren s vaoArr children

/-- Spec-side recursion over a child array, in order. -/
def specChildren (s : AiScene) (vaoArr : List MeshUpload) : List AiNode → List GLEvent
  | [] => []
  | c :: cs => specTraversal s vaoArr c ++ specChildren s vaoArr cs

end

/-- The `positions` buffer content `init` produces for one mesh
(`if HasPositions`). -/
def meshPosPart (m : AiMesh) : Option (List Float) :=
  if m.hasPositions then some (uploadedVertexData m) else none

/-- The `indices` buffer content `init` produces for one mesh
(`if HasFaces`). -/
def meshIdxPart (m : AiMesh) : Option (List Nat) :=
  if m.hasFaces then some (uploadedIndexData m) else none

/-! ## Concrete inputs used to instantiate the theorems -/

/-- Mesh 0 of the spec's example scene: 4 vertices, 2 triangular faces. -/
def demoMesh0 : AiMesh :=
  { mVertices := [⟨0.0, 0.0, 0.0⟩, ⟨1.0, 0.0, 0.0⟩, ⟨1.0, 1.0, 0.0⟩, ⟨0.0, 1.0, 0.0⟩]
    mFaces := [⟨[0, 1, 2]⟩, ⟨[0, 2, 3]⟩] }

/-- Mesh 1 of the spec's example scene: 3 vertices, 1 triangular face. -/
def demoMesh1 : AiMesh :=
  { mVertices := [⟨0.0, 0.0, 1.0⟩, ⟨1.0, 0.0, 1.0⟩, ⟨0.0, 1.0, 1.0⟩]
    mFaces := [⟨[0, 1, 2]⟩] }

/-- The spec's example scene: two meshes; the root carries mesh 0 and has a
child carrying mesh 1 plus a null child pointer. -/
def demoScene : AiScene :=
  { mMeshes := [demoMesh0, demoMesh1]
    mRootNode := AiNode.node [0] [AiNode.node [1] [], AiNode.null] }

/-- A mesh with one vertex and zero faces. -/
def zeroFaceMesh : AiMesh := { mVertices := [⟨0.0, 0.0, 0.0⟩], mFaces := [] }

/-- A scene whose only mesh has zero faces, referenced by the root node. -/
def zeroFaceScene : AiScene :=
  { mMeshes := [zeroFaceMesh], mRootNode := AiNode.node [0] [] }

/-- A mesh whose faces have 3, 2 and 4 indices: the total index count is
9 = 3 * 3 = `faceArrayAlloc`, yet the faces are not uniform. -/
def raggedMesh : AiMesh :=
  { mVertices := [], mFaces := [⟨[0, 1, 2]⟩, ⟨[0, 1]⟩, ⟨[0, 1, 2, 3]⟩] }

/-! ## Helper lemmas about the flattening loops -/

theorem writeIndicesFrom_length (vs : List Nat) : ∀ (arr : List Nat) (i : Nat),
    (writeIndicesFrom arr i vs).length = arr.length := by
  induction vs with
  | nil => intro arr i; rfl
  | cons v vs ih =>
    intro arr i
    simp only [writeIndicesFrom]
    rw [ih, List.length_set]

theorem writeIndicesFrom_eq (vs : List Nat) : ∀ (arr : List Nat) (i : Nat),
    i + vs.length ≤ arr.length →
    writeIndicesFrom arr i vs = (arr.take i ++ vs) ++ arr.drop (i + vs.length) := by
  induction vs with
  | nil =>
    intro arr i h
    simp only [writeIndicesFrom, List.append_nil, List.length_nil, Nat.add_zero]
    exact (List.take_append_drop i arr).symm
  | cons v vs ih =>
    intro arr i h
    have hi : i < arr.length := by
      simp only [List.length_cons] at h; omega
    simp only [writeIndicesFrom]
    rw [ih (arr.set i v) (i + 1) (by rw [List.length_set]; simp only [List.length_cons] at h; omega)]
    have hset : arr.set i v = (arr.take i ++ [v]) ++ arr.drop (i + 1) := by
      rw [List.set_eq_take_cons_drop v hi]; simp
    have hPlen : (arr.take i ++ [v]).length = i + 1 := by
      simp [List.length_take]; omega
    have htake : (arr.set i v).take (i + 1) = arr.take i ++ [v] := by
      rw [hset]; exact List.take_left' hPlen
    have hdrop : (arr.set i v).drop (i + 1 + vs.length) = arr.drop (i + 1 + vs.length) := by
      rw [List.drop_set, if_pos (by omega)]
    rw [htake, hdrop]
    have hidx : i + 1 + vs.length = i + (v :: vs).length := by
      simp only [List.length_cons]; omega
    rw [hidx]
    simp

theorem writeFacesFrom_length (fs : List AiFace) : ∀ (arr : List Nat) (i : Nat),
    (writeFacesFrom arr i fs).length = arr.length := by
  induction fs with
  | nil => intro arr i; rfl
  | cons f fs ih =>
    intro arr i
    simp only [writeFacesFrom]
    rw [ih, writeIndicesFrom_length]

theorem writeFacesFrom_eq (fs : List AiFace) : ∀ (arr : List Nat) (i : Nat),
    i + totalIndices fs ≤ arr.length →
    writeFacesFrom arr i fs =
      (arr.take i ++ (fs.map AiFace.mIndices).flatten) ++ arr.drop (i + totalIndices fs) := by
  induction fs with
  | nil =>
    intro arr i h
    simp only [writeFacesFrom, totalIndices, List.map_nil, List.sum_nil, List.flatten_nil,
      List.append_nil, Nat.add_zero]
    exact (List.take_append_drop i arr).symm
  | cons f fs ih =>
    intro arr i h
    have htot : totalIndices (f :: fs) = f.mNumIndices + totalIndices fs := by
      simp [totalIndices]
    have hK : i + f.mIndices.length ≤ arr.length := by
      rw [htot] at h; simp only [AiFace.mNumIndices] at h ⊢; omega
    have hi : i ≤ arr.length := by omega
    simp only [writeFacesFrom]
    rw [writeIndicesFrom_eq f.mIndices arr i hK]
    have hPlen : (arr.take i ++ f.mIndices).length = i + f.mNumIndices := by
      simp [List.length_take, AiFace.mNumIndices]; omega
    have hA : ((arr.take i ++ f.mIndices) ++ arr.drop (i + f.mIndices.length)).length
        = arr.length := by
      simp only [List.length_append, List.length_take, List.length_drop,
        AiFace.mNumIndices] at hPlen ⊢
      omega
    rw [ih _ (i + f.mNumIndices) (by rw [hA]; rw [htot] at h; omega)]
    have htake2 : ((arr.take i ++ f.mIndices) ++ arr.drop (i + f.mIndices.length)).take
        (i + f.mNumIndices) = arr.take i ++ f.mIndices :=
      List.take_left' hPlen
    have hdrop1 : ((arr.take i ++ f.mIndices) ++ arr.drop (i + f.mIndices.length)).drop
        (i + f.mNumIndices) = arr.drop (i + f.mIndices.length) :=
      List.drop_left' hPlen
    have hdrop2 : ((arr.take i ++ f.mIndices) ++ arr.drop (i + f.mIndices.length)).drop
        (i + f.mNumIndices + totalIndices fs)
        = arr.drop (i + f.mNumIndices + totalIndices fs) := by
      rw [← List.drop_drop, hdrop1, List.drop_drop]
      have : i + f.mIndices.length + totalIndices fs = i + f.mNumIndices + totalIndices fs := by
        simp [AiFace.mNumIndices]
      rw [this]
    rw [htake2, hdrop2, htot]
    have hidx : i + f.mNumIndices + totalIndices fs = i + (f.mNumIndices + totalIndices fs) := by
      omega
    rw [hidx]
    simp

theorem flatten_mIndices_length (fs : List AiFace) :
    ((fs.map AiFace.mIndices).flatten).length = totalIndices fs := by
  induction fs with
  | nil => rfl
  | cons f fs ih =>
    simp only [List.map_cons, List.flatten_cons, List.length_append, ih, totalIndices,
      List.sum_cons, AiFace.mNumIndices]

theorem totalIndices_uniform (fs : List AiFace) (K : Nat)
    (h : ∀ f ∈ fs, f.mNumIndices = K) : totalIndices fs = fs.length * K := by
  induction fs with
  | nil => simp [totalIndices]
  | cons f fs ih =>
    have hf : f.mNumIndices = K := h f (List.mem_cons_self f fs)
    have ih2 := ih fun g hg => h g (List.mem_cons_of_mem f hg)
    simp only [totalIndices, List.map_cons, List.sum_cons, List.length_cons] at *
    rw [hf, ih2, Nat.succ_mul]
    omega

theorem faceArrayAlloc_uniform (m : AiMesh) (K : Nat) (hne : m.mFaces ≠ [])
    (h : ∀ f ∈ m.mFaces, f.mNumIndices = K) :
    faceArrayAlloc m = m.mNumFaces * K := by
  unfold faceArrayAlloc
  cases hm : m.mFaces with
  | nil => exact absurd hm hne
  | cons f fs =>
    have hf : f.mNumIndices = K := h f (by rw [hm]; exact List.mem_cons_self f fs)
    simp [hm, hf]

theorem builtFaceArray_split (m : AiMesh) (h : totalIndices m.mFaces ≤ faceArrayAlloc m) :
    builtFaceArray m = (m.mFaces.map AiFace.mIndices).flatten ++
      (List.replicate (faceArrayAlloc m) 0).drop (totalIndices m.mFaces) := by
  unfold builtFaceArray
  rw [writeFacesFrom_eq m.mFaces _ 0 (by simp; omega)]
  simp

theorem vecFloats_flatten_length (vs : List AiVector3D) :
    ((vs.map vecFloats).flatten).length = 3 * vs.length := by
  induction vs with
  | nil => rfl
  | cons v vs ih =>
    simp only [List.map_cons, List.flatten_cons, List.length_append, ih, vecFloats,
      List.length_cons, List.length_nil]
    omega

/-! ## Claim theorems -/

/-- C1: for every mesh that has faces, with F faces each having K indices,
the flattened index array uploaded as the mesh's element buffer has length
F * K and lists each face's indices in face order and, within a face, in
index order (it equals the concatenation of the faces' index lists). -/
theorem c1_flattened_index_buffer (m : AiMesh) (K : Nat) (h0 : Nat)
    (hfaces : m.hasFaces = true)
    (hK : ∀ f ∈ m.mFaces, f.mNumIndices = K) :
    ((uploadMesh m h0).1).indices = some (uploadedIndexData m) ∧
    uploadedIndexData m = (m.mFaces.map AiFace.mIndices).flatten ∧
    (uploadedIndexData m).length = m.mNumFaces * K := by
  have hne : m.mFaces ≠ [] := by
    simp only [AiMesh.hasFaces, decide_eq_true_eq] at hfaces
    exact List.ne_nil_of_length_pos hfaces
  have htot : totalIndices m.mFaces = m.mNumFaces * K := by
    rw [totalIndices_uniform m.mFaces K hK]; rfl
  have halloc : faceArrayAlloc m = m.mNumFaces * K :=
    faceArrayAlloc_uniform m K hne hK
  have heq : uploadedIndexData m = (m.mFaces.map AiFace.mIndices).flatten := by
    unfold uploadedIndexData
    rw [builtFaceArray_split m (by rw [htot, halloc])]
    have hsuffix : (List.replicate (faceArrayAlloc m) 0).drop (totalIndices m.mFaces) = [] :=
      List.drop_eq_nil_of_le (by simp [htot, halloc])
    have hlen : ((m.mFaces.map AiFace.mIndices).flatten).length = faceArrayAlloc m := by
      rw [flatten_mIndices_length, htot, halloc]
    rw [hsuffix, List.append_nil, List.take_of_length_le (le_of_eq hlen)]
  refine ⟨?_, heq, ?_⟩
  · cases hp : m.hasPositions <;> simp [uploadMesh, hfaces, hp]
  · rw [heq, flatten_mIndices_length, htot]

/-- Witness for C1: the spec's mesh 0 (2 triangular faces) has a flattened
index buffer of length 2 * 3 = 6 listing both faces' indices in order. -/
theorem c1_flattened_index_buffer_witness :
    demoMesh0.hasFaces = true ∧
    (((uploadMesh demoMesh0 1).1).indices = some (uploadedIndexData demoMesh0) ∧
      uploadedIndexData demoMesh0 = (demoMesh0.mFaces.map AiFace.mIndices).flatten ∧
      (uploadedIndexData demoMesh0).length = demoMesh0.mNumFaces * 3) :=
  ⟨by decide, c1_flattened_index_buffer demoMesh0 3 1 (by decide) (by decide)⟩

/-- C2: for every mesh that has vertex positions, the uploaded vertex buffer
is exactly the 3 * N floats of the mesh's flat position array, in order, with
no transformation applied. -/
theorem c2_vertex_buffer_identity (m : AiMesh) (h0 : Nat)
    (hpos : m.hasPositions = true) :
    ((uploadMesh m h0).1).positions = some (uploadedVertexData m) ∧
    uploadedVertexData m = (m.mVertices.map vecFloats).flatten ∧
    (uploadedVertexData m).length = 3 * m.mNumVertices := by
  have hlen : ((m.mVertices.map vecFloats).flatten).length = 3 * m.mNumVertices :=
    vecFloats_flatten_length m.mVertices
  have heq : uploadedVertexData m = (m.mVertices.map vecFloats).flatten := by
    unfold uploadedVertexData
    exact List.take_of_length_le (le_of_eq hlen)
  refine ⟨?_, heq, by rw [heq, hlen]⟩
  cases hf : m.hasFaces <;> simp [uploadMesh, hpos, hf]

/-- Witness for C2 at the spec's mesh 1: 3 vertices give 9 uploaded floats. -/
theorem c2_vertex_buffer_identity_witness :
    demoMesh1.hasPositions = true ∧
    (((uploadMesh demoMesh1 1).1).positions = some (uploadedVertexData demoMesh1) ∧
      uploadedVertexData demoMesh1 = (demoMesh1.mVertices.map vecFloats).flatten ∧
      (uploadedVertexData demoMesh1).length = 3 * demoMesh1.mNumVertices) :=
  ⟨by rfl, c2_vertex_buffer_identity demoMesh1 1 (by rfl)⟩

theorem uploadLoop_length (ms : List AiMesh) : ∀ h : Nat,
    ((uploadLoop ms h).1).length = ms.length := by
  induction ms with
  | nil => intro h; rfl
  | cons m ms ih =>
    intro h
    rcases hu : uploadMesh m h with ⟨u, h1⟩
    rcases hl : uploadLoop ms h1 with ⟨rest, h2⟩
    have hr := ih h1
    rw [hl] at hr
    simp [uploadLoop, hu, hl, hr]

theorem uploadLoop_get (ms : List AiMesh) : ∀ (h : Nat) (i : Nat) (hi : i < ms.length),
    ∃ hdl, ((uploadLoop ms h).1)[i]? = some (uploadMesh (ms.get ⟨i, hi⟩) hdl).1 := by
  induction ms with
  | nil => intro h i hi; exact absurd hi (by simp)
  | cons m ms ih =>
    intro h i hi
    rcases hu : uploadMesh m h with ⟨u, h1⟩
    rcases hl : uploadLoop ms h1 with ⟨rest, h2⟩
    cases i with
    | zero =>
      refine ⟨h, ?_⟩
      simp [uploadLoop, hu, hl]
    | succ i =>
      have hi2 : i < ms.length := by simpa using hi
      obtain ⟨hdl, hh⟩ := ih h1 i hi2
      rw [hl] at hh
      refine ⟨hdl, ?_⟩
      simpa [uploadLoop, hu, hl] using hh

theorem renderFrames_fst (st : ProgState) : ∀ n : Nat, (renderFrames st n).1 = st := by
  intro n
  induction n with
  | zero => rfl
  | succ n ih =>
    rcases hr : renderFrames st n with ⟨st2, rest⟩
    rw [hr] at ih
    simp [renderFrames, frameStep, hr, ih]

theorem renderFrames_events (st : ProgState) : ∀ n : Nat,
    ∀ e ∈ (renderFrames st n).2, e = display st := by
  intro n
  induction n with
  | zero => intro e he; simp [renderFrames] at he
  | succ n ih =>
    intro e he
    rcases hr : renderFrames st n with ⟨st2, rest⟩
    rw [hr] at ih
    simp [renderFrames, frameStep, hr] at he
    rcases he with rfl | hmem
    · rfl
    · exact ih e hmem

/-- C3: for every successfully loaded scene, the handle table produced by
`init` has one entry per mesh, entry `i` is the upload of scene mesh `i`, and
the table is already complete in the state every render frame reads (render
frames never change the state). -/
theorem c3_handle_table_aligned (s : AiScene) (err : String) :
    ∃ tbl, ((init true (some s) err).1).vaoTable = some tbl ∧
      tbl.length = s.mNumMeshes ∧
      (∀ (i : Nat) (hi : i < s.mMeshes.length),
        ∃ hdl, tbl[i]? = some (uploadMesh (s.mMeshes.get ⟨i, hi⟩) hdl).1) ∧
      ∀ n : Nat, (renderFrames (init true (some s) err).1 n).1
        = (init true (some s) err).1 := by
  refine ⟨(uploadLoop s.mMeshes 1).1, ?_, ?_, ?_, ?_⟩
  · simp [init, load3DFile]
  · rw [uploadLoop_length]; rfl
  · intro i hi; exact uploadLoop_get s.mMeshes 1 i hi
  · intro n; exact renderFrames_fst _ n

/-- C7: the traversal renderer mutates no program state and is idempotent:
one frame returns the state unchanged, a second frame produces the same
event trace again, and after two frames the state equals the state after
one. -/
theorem c7_renderer_pure_idempotent (st : ProgState) :
    frameStep st = (st, display st) ∧
    frameStep (frameStep st).1 = (st, display st) ∧
    renderFrames st 2 = (st, [display st, display st]) := by
  refine ⟨rfl, rfl, ?_⟩
  simp [renderFrames, frameStep]

/-- C8: the Escape key (033) terminates the process with success and every
other key requests a redraw, in both cases leaving the program state (scene,
handle table, shader program) unchanged. -/
theorem c8_keyboard (st : ProgState) (k : Nat) (hk : k ≠ 27) :
    keyboard st 27 = (st, KeyEffect.exitProcess 0) ∧
    keyboard st k = (st, KeyEffect.redraw) := by
  refine ⟨rfl, ?_⟩
  simp [keyboard, hk]

/-- Witness for C8 at key 97 and an empty program state. -/
theorem c8_keyboard_witness :
    (97 ≠ 27) ∧
    (keyboard { scene := none, vaoTable := none, program := 1 } 27
        = ({ scene := none, vaoTable := none, program := 1 }, KeyEffect.exitProcess 0) ∧
      keyboard { scene := none, vaoTable := none, program := 1 } 97
        = ({ scene := none, vaoTable := none, program := 1 }, KeyEffect.redraw)) :=
  ⟨by decide, c8_keyboard { scene := none, vaoTable := none, program := 1 } 97 (by decide)⟩

/-- C6: when the load fails (unreadable file or null import result) an error
line is on the console, the scene stays unset, no handle table is built, and
every subsequent frame leaves the state unchanged and issues no draw call
(its event trace is defined and empty). -/
theorem c6_load_failure (readable : Bool) (imp : Option AiScene) (err : String)
    (hfail : readable = false ∨ imp = none) :
    ((init readable imp err).1).scene = none ∧
    ((init readable imp err).1).vaoTable = none ∧
    ("Unable to open the 3D file." ∈ (init readable imp err).2 ∨
      err ∈ (init readable imp err).2) ∧
    ∀ n : Nat, (renderFrames (init readable imp err).1 n).1 = (init readable imp err).1 ∧
      ∀ e ∈ (renderFrames (init readable imp err).1 n).2, e = some [] := by
  have hstate : (init readable imp err).1
      = { scene := none, vaoTable := none, program := 1 } ∧
      ("Unable to open the 3D file." ∈ (init readable imp err).2 ∨
        err ∈ (init readable imp err).2) := by
    rcases hfail with h | h
    · subst h
      cases imp <;> simp [init, load3DFile]
    · subst h
      cases readable <;> simp [init, load3DFile]
  obtain ⟨h1, h2⟩ := hstate
  refine ⟨by rw [h1], by rw [h1], h2, ?_⟩
  intro n
  refine ⟨renderFrames_fst _ n, ?_⟩
  intro e he
  rw [renderFrames_events _ n e he, h1]
  rfl

/-- Witness for C6 at an unreadable file. -/
theorem c6_load_failure_witness :
    (false = false ∨ (none : Option AiScene) = none) ∧
    (((init false none "import error").1).scene = none ∧
      ((init false none "import error").1).vaoTable = none ∧
      ("Unable to open the 3D file." ∈ (init false none "import error").2 ∨
        "import error" ∈ (init false none "import error").2) ∧
      ∀ n : Nat, (renderFrames (init false none "import error").1 n).1
          = (init false none "import error").1 ∧
        ∀ e ∈ (renderFrames (init false none "import error").1 n).2, e = some []) :=
  ⟨Or.inl rfl, c6_load_failure false none "import error" (Or.inl rfl)⟩

theorem totalIndices_cons (f : AiFace) (fs : List AiFace) :
    totalIndices (f :: fs) = f.mNumIndices + totalIndices fs := by
  simp [totalIndices]

theorem writeTraceFrom_eq (fs : List AiFace) : ∀ i : Nat,
    writeTraceFrom i fs = List.range' i (totalIndices fs) := by
  induction fs with
  | nil => intro i; simp [writeTraceFrom, totalIndices]
  | cons f fs ih =>
    intro i
    rw [writeTraceFrom, ih, totalIndices_cons, List.range'_append_1,
      Nat.add_comm (totalIndices fs) f.mNumIndices]

/-- C9 as stated is false: `raggedMesh` has 3 faces with 3, 2 and 4 indices;
all stores of the flattening loop are in bounds and exactly
`mNumFaces * mFaces[0].mNumIndices = 9` cells are filled, yet the faces do
not all have the index count of face 0. -/
theorem c9_inbounds_iff_uniform_cex :
    ¬ (0 < raggedMesh.mNumFaces →
      ((writesInBounds raggedMesh = true ∧ fillsExactly raggedMesh = true) ↔
        ∀ f ∈ raggedMesh.mFaces,
          f.mNumIndices = ((raggedMesh.mFaces[0]?).map AiFace.mNumIndices).getD 0)) := by
  decide

/-- C9 (amended): for every mesh with at least one face, the flattening loop
writes only in-bounds positions and fills exactly
`mNumFaces * mFaces[0].mNumIndices` cells if and only if the total index
count over all faces equals that product; in particular this holds whenever
every face has the same index count as face 0. -/
theorem c9_inbounds_iff_total (m : AiMesh) (hf : 0 < m.mNumFaces) :
    ((writesInBounds m = true ∧ fillsExactly m = true) ↔
      totalIndices m.mFaces = faceArrayAlloc m) ∧
    ((∀ f ∈ m.mFaces,
        f.mNumIndices = ((m.mFaces[0]?).map AiFace.mNumIndices).getD 0) →
      (writesInBounds m = true ∧ fillsExactly m = true)) := by
  have htrace : faceWriteTrace m = List.range' 0 (totalIndices m.mFaces) :=
    writeTraceFrom_eq m.mFaces 0
  have hwib : writesInBounds m = true ↔ totalIndices m.mFaces ≤ faceArrayAlloc m := by
    unfold writesInBounds
    rw [htrace]
    simp only [List.all_eq_true, decide_eq_true_eq]
    constructor
    · intro hall
      rcases Nat.eq_zero_or_pos (totalIndices m.mFaces) with h0 | hpos
      · omega
      · have hmem : totalIndices m.mFaces - 1 ∈ List.range' 0 (totalIndices m.mFaces) :=
          List.mem_range'.2 ⟨totalIndices m.mFaces - 1, by omega, by omega⟩
        have := hall _ hmem
        omega
    · intro hle p hp
      obtain ⟨j, hj1, hj2⟩ := List.mem_range'.1 hp
      omega
  have hfe : fillsExactly m = true ↔ totalIndices m.mFaces = faceArrayAlloc m := by
    unfold fillsExactly
    rw [htrace]
    simp [List.length_range']
  have hne : m.mFaces ≠ [] := by
    have : 0 < m.mFaces.length := hf
    exact List.ne_nil_of_length_pos this
  constructor
  · rw [hwib, hfe]
    omega
  · intro hK
    have htot : totalIndices m.mFaces = faceArrayAlloc m := by
      rw [totalIndices_uniform m.mFaces _ hK, faceArrayAlloc_uniform m _ hne hK]
      rfl
    rw [hwib, hfe]
    omega

/-- Witness for C9 (amended) at the spec's mesh 0 (uniform triangles). -/
theorem c9_inbounds_iff_total_witness :
    (0 < demoMesh0.mNumFaces) ∧
    (((writesInBounds demoMesh0 = true ∧ fillsExactly demoMesh0 = true) ↔
        totalIndices demoMesh0.mFaces = faceArrayAlloc demoMesh0) ∧
      ((∀ f ∈ demoMesh0.mFaces,
          f.mNumIndices = ((demoMesh0.mFaces[0]?).map AiFace.mNumIndices).getD 0) →
        (writesInBounds demoMesh0 = true ∧ fillsExactly demoMesh0 = true))) :=
  ⟨by decide, c9_inbounds_iff_total demoMesh0 (by decide)⟩

theorem mem_childMeshIndices {i : Nat} : ∀ (cs : List AiNode), ∀ c ∈ cs,
    i ∈ treeMeshIndices c → i ∈ childMeshIndices cs := by
  intro cs
  induction cs with
  | nil => intro c hc; simp at hc
  | cons d ds ih =>
    intro c hc hi
    rw [childMeshIndices, List.mem_append]
    rcases List.mem_cons.1 hc with rfl | hmem
    · exact Or.inl hi
    · exact Or.inr (ih c hmem hi)

/-- C10: if every mesh index attached to a node of the tree is below the
scene's mesh count and the handle table has one slot per mesh, then every
`vaoArray[meshIndex]` and `scene->mMeshes[meshIndex]` lookup the traversal
performs is in bounds: the optional lookups are all `some`. -/
theorem c10_traversal_lookups_in_bounds (s : AiScene) (vaoArr : List MeshUpload)
    (t : AiNode)
    (hlen : vaoArr.length = s.mNumMeshes)
    (hidx : ∀ i ∈ treeMeshIndices t, i < s.mNumMeshes) :
    ∀ i ∈ treeMeshIndices t,
      (vaoArr[i]?).isSome ∧ (s.mMeshes[i]?).isSome ∧ (meshLookup s vaoArr i).isSome := by
  intro i hi
  have h2 : i < s.mMeshes.length := hidx i hi
  have h1 : i < vaoArr.length := by
    rw [hlen]; exact h2
  refine ⟨?_, ?_, ?_⟩
  · rw [List.getElem?_eq_getElem h1]; rfl
  · rw [List.getElem?_eq_getElem h2]; rfl
  · unfold meshLookup
    rw [List.getElem?_eq_getElem h1, List.getElem?_eq_getElem h2]
    rfl

/-- Witness for C10 at the example scene's node tree and handle table. -/
theorem c10_traversal_lookups_witness :
    ((uploadLoop demoScene.mMeshes 1).1.length = demoScene.mNumMeshes) ∧
    (∀ i ∈ treeMeshIndices demoScene.mRootNode, i < demoScene.mNumMeshes) ∧
    (∀ i ∈ treeMeshIndices demoScene.mRootNode,
      (((uploadLoop demoScene.mMeshes 1).1)[i]?).isSome ∧
      ((demoScene.mMeshes)[i]?).isSome ∧
      (meshLookup demoScene (uploadLoop demoScene.mMeshes 1).1 i).isSome) :=
  ⟨by decide, by decide,
    c10_traversal_lookups_in_bounds demoScene (uploadLoop demoScene.mMeshes 1).1
      demoScene.mRootNode (by decide) (by decide)⟩

theorem AiNode.inductionOn {P : AiNode → Prop}
    (hnull : P AiNode.null)
    (hnode : ∀ ms cs, (∀ c ∈ cs, P c) → P (AiNode.node ms cs)) :
    ∀ t, P t
  | AiNode.null => hnull
  | AiNode.node ms cs =>
    hnode ms cs fun c hc => AiNode.inductionOn hnull hnode c
termination_by t => sizeOf t
decreasing_by
  simp_wf
  have := List.sizeOf_lt_of_mem hc
  omega

theorem drawNodeMeshes_spec (s : AiScene) (vaoArr : List MeshUpload)
    (hlen : vaoArr.length = s.mNumMeshes) :
    ∀ is : List Nat,
      (∀ i ∈ is, i < s.mNumMeshes) →
      (∀ i ∈ is, ((s.mMeshes[i]?).map AiMesh.hasFaces).getD false = true) →
      drawNodeMeshes s vaoArr is
        = some (is.map fun i => GLEvent.draw (specVao vaoArr i) (specDrawCount s i)) := by
  intro is
  induction is with
  | nil => intro _ _; rfl
  | cons i is ih =>
    intro hidx hfc
    have hi : i < s.mMeshes.length := hidx i (List.mem_cons_self i is)
    have hiv : i < vaoArr.length := by
      rw [hlen]; exact hi
    have hface : (s.mMeshes[i]).hasFaces = true := by
      have := hfc i (List.mem_cons_self i is)
      rw [List.getElem?_eq_getElem hi] at this
      simpa using this
    have h0 : 0 < (s.mMeshes[i]).mFaces.length := by
      simpa [AiMesh.hasFaces] using hface
    have hrest := ih (fun j hj => hidx j (List.mem_cons_of_mem i hj))
      (fun j hj => hfc j (List.mem_cons_of_mem i hj))
    have hml : meshLookup s vaoArr i = some (vaoArr[i], s.mMeshes[i]) := by
      unfold meshLookup
      rw [List.getElem?_eq_getElem hiv, List.getElem?_eq_getElem hi]
    simp only [drawNodeMeshes, hml, List.getElem?_eq_getElem h0, hrest, List.map_cons,
      Option.bind_some, Option.some_bind, Option.bind_eq_bind]
    simp [specVao, specDrawCount, List.getElem?_eq_getElem hiv, List.getElem?_eq_getElem hi,
      List.getElem?_eq_getElem h0]

theorem traverseChildren_eq_spec (s : AiScene) (vaoArr : List MeshUpload) :
    ∀ cs : List AiNode,
      (∀ c ∈ cs, nodeTreeTraversal s vaoArr c = some (specTraversal s vaoArr c)) →
      traverseChildren s vaoArr cs = some (specChildren s vaoArr cs) := by
  intro cs
  induction cs with
  | nil => intro _; rfl
  | cons c cs ih =>
    intro h
    have hc := h c (List.mem_cons_self c cs)
    have hcs := ih fun d hd => h d (List.mem_cons_of_mem c hd)
    simp [traverseChildren, specChildren, hc, hcs]

theorem traversal_eq_spec (s : AiScene) (vaoArr : List MeshUpload)
    (hlen : vaoArr.length = s.mNumMeshes) :
    ∀ t : AiNode,
      (∀ i ∈ treeMeshIndices t, i < s.mNumMeshes) →
      (∀ i ∈ treeMeshIndices t, ((s.mMeshes[i]?).map AiMesh.hasFaces).getD false = true) →
      nodeTreeTraversal s vaoArr t = some (specTraversal s vaoArr t) := by
  intro t
  induction t using AiNode.inductionOn with
  | hnull => intro _ _; rfl
  | hnode ms cs ih =>
    intro h1 h2
    have hsub : ∀ i ∈ ms, i ∈ treeMeshIndices (AiNode.node ms cs) := by
      intro i hi
      rw [treeMeshIndices, List.mem_append]
      exact Or.inl hi
    have hdraw := drawNodeMeshes_spec s vaoArr hlen ms
      (fun i hi => h1 i (hsub i hi)) (fun i hi => h2 i (hsub i hi))
    have hchild : ∀ c ∈ cs, nodeTreeTraversal s vaoArr c = some (specTraversal s vaoArr c) := by
      intro c hc
      have hsubc : ∀ i ∈ treeMeshIndices c, i ∈ treeMeshIndices (AiNode.node ms cs) := by
        intro i hi
        rw [treeMeshIndices, List.mem_append]
        exact Or.inr (mem_childMeshIndices cs c hc hi)
      exact ih c hc (fun i hi => h1 i (hsubc i hi)) (fun i hi => h2 i (hsubc i hi))
    have hch := traverseChildren_eq_spec s vaoArr cs hchild
    simp [nodeTreeTraversal, specTraversal, hdraw, hch]

/-- C4: under the traversal's implicit well-formedness assumptions (attached
mesh indices in range, table aligned with the mesh collection, referenced
meshes non-empty), the traversal visits nodes depth-first in child-array
order and issues, per attached mesh index in attachment order, exactly one
draw call of size face count times the first face's index count (the
spec-side recursion `specTraversal`); a null node is a no-op apart from the
diagnostic line, and a node with no attached meshes issues no draw of its own
but still recurses into its children. -/
theorem c4_traversal_order (s : AiScene) (vaoArr : List MeshUpload) (t : AiNode)
    (hlen : vaoArr.length = s.mNumMeshes)
    (hidx : ∀ i ∈ treeMeshIndices t, i < s.mNumMeshes)
    (hfc : ∀ i ∈ treeMeshIndices t, ((s.mMeshes[i]?).map AiMesh.hasFaces).getD false = true) :
    nodeTreeTraversal s vaoArr t = some (specTraversal s vaoArr t) ∧
    nodeTreeTraversal s vaoArr AiNode.null
      = some [GLEvent.log "nodeTreeTraversal(): Null node"] ∧
    ∀ cs : List AiNode, nodeTreeTraversal s vaoArr (AiNode.node [] cs)
      = traverseChildren s vaoArr cs := by
  refine ⟨traversal_eq_spec s vaoArr hlen t hidx hfc, rfl, ?_⟩
  intro cs
  rw [nodeTreeTraversal]
  cases h : traverseChildren s vaoArr cs <;> simp [drawNodeMeshes, h]

/-- Witness for C4 at the example scene: root node with mesh 0, a child with
mesh 1, and a null child pointer. -/
theorem c4_traversal_order_witness :
    ((uploadLoop demoScene.mMeshes 1).1.length = demoScene.mNumMeshes) ∧
    (∀ i ∈ treeMeshIndices demoScene.mRootNode, i < demoScene.mNumMeshes) ∧
    (∀ i ∈ treeMeshIndices demoScene.mRootNode,
      ((demoScene.mMeshes[i]?).map AiMesh.hasFaces).getD false = true) ∧
    (nodeTreeTraversal demoScene (uploadLoop demoScene.mMeshes 1).1 demoScene.mRootNode
        = some (specTraversal demoScene (uploadLoop demoScene.mMeshes 1).1
            demoScene.mRootNode) ∧
      nodeTreeTraversal demoScene (uploadLoop demoScene.mMeshes 1).1 AiNode.null
        = some [GLEvent.log "nodeTreeTraversal(): Null node"] ∧
      ∀ cs : List AiNode,
        nodeTreeTraversal demoScene (uploadLoop demoScene.mMeshes 1).1 (AiNode.node [] cs)
          = traverseChildren demoScene (uploadLoop demoScene.mMeshes 1).1 cs) :=
  ⟨by decide, by decide, by decide,
    c4_traversal_order demoScene (uploadLoop demoScene.mMeshes 1).1 demoScene.mRootNode
      (by decide) (by decide) (by decide)⟩

/-- C5: what the code actually does for a mesh with zero faces.  The uploader
indeed creates no index buffer for it (the `HasFaces()` guard), but the
renderer does not skip the draw: it unconditionally reads
`mFaces[0].mNumIndices`, an out-of-bounds access of the empty face array
(modelled as `none`), so the whole traversal of a node referencing the mesh
is undefined rather than a draw-free no-op. -/
theorem c5_zero_face_mesh_behavior :
    ((uploadMesh zeroFaceMesh 1).1).indices = none ∧
    (zeroFaceMesh.mFaces[0]?) = none ∧
    nodeTreeTraversal zeroFaceScene (uploadLoop zeroFaceScene.mMeshes 1).1
      (AiNode.node [0] []) = none ∧
    display { scene := some zeroFaceScene,
              vaoTable := some (uploadLoop zeroFaceScene.mMeshes 1).1,
              program := 1 } = none := by
  refine ⟨rfl, rfl, rfl, rfl⟩
